import Mathlib

/-!
Shallow embedding of the gzip member-header decoder of `inflate-rs`
(`src/lib.rs`).  The `impl Read` argument of `Member::from_reader` is
modelled as the list of bytes not yet consumed; the monad
`EStateM Error (List Nat)` threads that list and keeps the final reader
state on success and on failure alike, matching a mutable reader whose
consumed bytes are gone even when the decode returns an error.
Bytes are `Nat`s (always < 256 when they come from a real stream);
multi-byte integers are combined little-endian exactly as
`byteorder::LittleEndian` does.  `String::from_utf8_lossy` is modelled
by `from_utf8_lossy`, a total function from bytes to Unicode scalar
values that replaces each maximal invalid UTF-8 subsequence by U+FFFD.
-/

def MAGIC1 : Nat := 0x1f

def MAGIC2 : Nat := 0x8b

inductive FormatError where
  | InvalidMagic1 (b : Nat)
  | InvalidMagic2 (b : Nat)
deriving DecidableEq, Repr

inductive Error where
  | Io
  | Format (e : FormatError)
deriving DecidableEq, Repr

/-- `CompressionMethod` with `#[derive(FromPrimitive)]`, default `Unknown`. -/
inductive CompressionMethod where
  | Reserved0
  | Reserved1
  | Reserved2
  | Reserved3
  | Reserved4
  | Reserved5
  | Reserved6
  | Reserved7
  | Deflate
  | Unknown
deriving DecidableEq, Repr

/-- `num_enum::FromPrimitive` conversion for `CompressionMethod`:
every discriminant maps to its variant, everything else to the
`#[default]` variant `Unknown` (whose own discriminant is `0xff`). -/
def CompressionMethod.fromPrimitive : Nat → CompressionMethod
  | 0x00 => .Reserved0
  | 0x01 => .Reserved1
  | 0x02 => .Reserved2
  | 0x03 => .Reserved3
  | 0x04 => .Reserved4
  | 0x05 => .Reserved5
  | 0x06 => .Reserved6
  | 0x07 => .Reserved7
  | 0x08 => .Deflate
  | _ => .Unknown

/-- `OperatingSystem` with `#[derive(FromPrimitive)]`, default `Unknown`. -/
inductive OperatingSystem where
  | Fat
  | Amiga
  | Vms
  | Unix
  | VmCms
  | Atari
  | Hpfs
  | Macintosh
  | ZSystem
  | CPM
  | Top20
  | Ntfs
  | QDos
  | AcornRiscOS
  | Unknown
deriving DecidableEq, Repr

/-- `num_enum::FromPrimitive` conversion for `OperatingSystem`. -/
def OperatingSystem.fromPrimitive : Nat → OperatingSystem
  | 0x00 => .Fat
  | 0x01 => .Amiga
  | 0x02 => .Vms
  | 0x03 => .Unix
  | 0x04 => .VmCms
  | 0x05 => .Atari
  | 0x06 => .Hpfs
  | 0x07 => .Macintosh
  | 0x08 => .ZSystem
  | 0x09 => .CPM
  | 0x0a => .Top20
  | 0x0b => .Ntfs
  | 0x0c => .QDos
  | 0x0d => .AcornRiscOS
  | _ => .Unknown

namespace Flags

def Text : Nat := 0b00000001

def HCrc : Nat := 0b00000010

def Extra : Nat := 0b00000100

def Name : Nat := 0b00001000

def Comment : Nat := 0b00010000

/-- `bitmask_enum`'s `contains`: all bits of `other` are set in `f`.
The flags value itself is the raw byte, extra bits preserved. -/
def contains (f other : Nat) : Bool := f &&& other == other

end Flags

structure Extra where
  subid1 : Nat
  subid2 : Nat
  length : Nat
  data : List Nat
deriving DecidableEq, Repr

structure Member where
  magic1 : Nat
  magic2 : Nat
  compression_method : CompressionMethod
  flags : Nat
  modification_time : Nat
  extra_flags : Nat
  operating_system : OperatingSystem
  extra_fields : Option Extra
  original_file_name : Option (List Nat)
  comment : Option (List Nat)
  crc16 : Option Nat
  data : List Nat
  crc32 : Nat
  size : Nat
deriving DecidableEq, Repr

/-- The reader monad: state is the list of not-yet-consumed bytes. -/
abbrev M := EStateM Error (List Nat)

/-- `read_u8`: consume one byte; end of stream is an I/O error. -/
def readU8 : M Nat := fun s =>
  match s with
  | [] => .error .Io []
  | b :: rest => .ok b rest

/-- `read_u16::<LittleEndian>`. -/
def readU16LE : M Nat := do
  let b0 ← readU8
  let b1 ← readU8
  pure (b0 + 256 * b1)

/-- `read_u32::<LittleEndian>`. -/
def readU32LE : M Nat := do
  let b0 ← readU8
  let b1 ← readU8
  let b2 ← readU8
  let b3 ← readU8
  pure (b0 + 256 * b1 + 65536 * b2 + 16777216 * b3)

/-- `read_to_vec`: read exactly `length` bytes into a vector, in order;
a short read is an I/O error (with everything available consumed). -/
def read_to_vec : Nat → List Nat → EStateM.Result Error (List Nat) (List Nat)
  | 0, s => .ok [] s
  | _ + 1, [] => .error .Io []
  | n + 1, b :: rest =>
    match read_to_vec n rest with
    | .ok v s' => .ok (b :: v) s'
    | .error e s' => .error e s'

/-- The `loop { match r.read_u8()? { 0 => break, x => buf.push(x) } }`
null-terminated read used for the filename and the comment: accumulate
bytes until the first zero byte, which is consumed but not stored. -/
def read_string_loop (buf : List Nat) : List Nat → EStateM.Result Error (List Nat) (List Nat)
  | [] => .error .Io []
  | b :: rest =>
    if b = 0 then .ok buf rest
    else read_string_loop (buf ++ [b]) rest

/-- Whether `b` is a UTF-8 continuation byte. -/
def isCont (b : Nat) : Bool := 0x80 ≤ b && b ≤ 0xbf

/-- First continuation byte constraint of a 3-byte UTF-8 sequence. -/
def cont3ok (b c : Nat) : Bool :=
  if b = 0xe0 then 0xa0 ≤ c && c ≤ 0xbf
  else if b = 0xed then 0x80 ≤ c && c ≤ 0x9f
  else isCont c

/-- First continuation byte constraint of a 4-byte UTF-8 sequence. -/
def cont4ok (b c : Nat) : Bool :=
  if b = 0xf0 then 0x90 ≤ c && c ≤ 0xbf
  else if b = 0xf4 then 0x80 ≤ c && c ≤ 0x8f
  else isCont c

/-- `String::from_utf8_lossy` as a total function from bytes to Unicode
scalar values: valid sequences decode, each maximal invalid subsequence
becomes U+FFFD (`0xfffd`); it never fails. -/
def from_utf8_lossy : List Nat → List Nat
  | [] => []
  | b :: rest =>
    if b ≤ 0x7f then b :: from_utf8_lossy rest
    else if 0xc2 ≤ b && b ≤ 0xdf then
      match rest with
      | [] => [0xfffd]
      | c :: rest2 =>
        if isCont c then ((b - 0xc0) * 64 + (c - 0x80)) :: from_utf8_lossy rest2
        else 0xfffd :: from_utf8_lossy (c :: rest2)
    else if 0xe0 ≤ b && b ≤ 0xef then
      match rest with
      | [] => [0xfffd]
      | c :: rest2 =>
        if cont3ok b c then
          match rest2 with
          | [] => [0xfffd]
          | d :: rest3 =>
            if isCont d then
              ((b - 0xe0) * 4096 + (c - 0x80) * 64 + (d - 0x80)) :: from_utf8_lossy rest3
            else 0xfffd :: from_utf8_lossy (d :: rest3)
        else 0xfffd :: from_utf8_lossy (c :: rest2)
    else if 0xf0 ≤ b && b ≤ 0xf4 then
      match rest with
      | [] => [0xfffd]
      | c :: rest2 =>
        if cont4ok b c then
          match rest2 with
          | [] => [0xfffd]
          | d :: rest3 =>
            if isCont d then
              match rest3 with
              | [] => [0xfffd]
              | e :: rest4 =>
                if isCont e then
                  ((b - 0xf0) * 262144 + (c - 0x80) * 4096 + (d - 0x80) * 64 + (e - 0x80)) ::
                    from_utf8_lossy rest4
                else 0xfffd :: from_utf8_lossy (e :: rest4)
            else 0xfffd :: from_utf8_lossy (d :: rest3)
        else 0xfffd :: from_utf8_lossy (c :: rest2)
    else 0xfffd :: from_utf8_lossy rest

/-- `Member::from_reader`, field for field and read for read. -/
def Member.from_reader : M Member := do
  let magic1 ← readU8
  if magic1 ≠ MAGIC1 then
    EStateM.throw (Error.Format (FormatError.InvalidMagic1 magic1))
  let magic2 ← readU8
  if magic2 ≠ MAGIC2 then
    EStateM.throw (Error.Format (FormatError.InvalidMagic2 magic2))
  let compression_method := CompressionMethod.fromPrimitive (← readU8)
  let flags ← readU8
  let modification_time ← readU32LE
  let extra_flags ← readU8
  let operating_system := OperatingSystem.fromPrimitive (← readU8)
  let extra_fields ←
    if Flags.contains flags Flags.Extra then do
      let subid1 ← readU8
      let subid2 ← readU8
      let length ← readU16LE
      let data ← read_to_vec length
      pure (some { subid1, subid2, length, data : Extra })
    else
      pure none
  let original_file_name ←
    if Flags.contains flags Flags.Name then do
      let buf ← read_string_loop []
      pure (some (from_utf8_lossy buf))
    else
      pure none
  let comment ←
    if Flags.contains flags Flags.Comment then do
      let buf ← read_string_loop []
      pure (some (from_utf8_lossy buf))
    else
      pure none
  let crc16 ←
    if Flags.contains flags Flags.HCrc then do
      let v ← readU16LE
      pure (some v)
    else
      pure none
  let data : List Nat := []
  let crc32 : Nat := 0
  let size : Nat := 0
  pure { magic1, magic2, compression_method, flags, modification_time, extra_flags,
         operating_system, extra_fields, original_file_name, comment, crc16,
         data, crc32, size }

/-! Helper lemmas about the reader monad and the sub-readers. -/

theorem bind_eq {α β : Type} (x : M α) (f : α → M β) (s : List Nat) :
    (x >>= f) s =
      match x s with
      | .ok a s1 => f a s1
      | .error e s1 => .error e s1 := by
  show EStateM.bind x f s = _
  unfold EStateM.bind
  cases x s <;> rfl

theorem pure_eq {α : Type} (a : α) (s : List Nat) : (pure a : M α) s = .ok a s := rfl

theorem throw_eq {α : Type} (e : Error) (s : List Nat) :
    (EStateM.throw e : M α) s = .error e s := rfl

theorem map_eq {α β : Type} (g : α → β) (x : M α) (s : List Nat) :
    (g <$> x) s =
      match x s with
      | .ok a s1 => .ok (g a) s1
      | .error e s1 => .error e s1 := by
  show EStateM.map g x s = _
  unfold EStateM.map
  cases x s <;> rfl

theorem ite_run {ε σ α : Type} (c : Prop) [Decidable c] (t e : EStateM ε σ α) (s : σ) :
    (if c then t else e) s = if c then t s else e s := by
  split <;> rfl

theorem readU8_eq (s : List Nat) :
    readU8 s =
      match s with
      | [] => .error .Io []
      | b :: rest => .ok b rest := rfl

theorem readU16LE_eq (s : List Nat) :
    readU16LE s =
      match s with
      | b0 :: b1 :: rest => .ok (b0 + 256 * b1) rest
      | _ => .error .Io [] := by
  match s with
  | [] => rfl
  | [_] => rfl
  | _ :: _ :: _ => rfl

theorem readU32LE_eq (s : List Nat) :
    readU32LE s =
      match s with
      | b0 :: b1 :: b2 :: b3 :: rest =>
        .ok (b0 + 256 * b1 + 65536 * b2 + 16777216 * b3) rest
      | _ => .error .Io [] := by
  match s with
  | [] => rfl
  | [_] => rfl
  | [_, _] => rfl
  | [_, _, _] => rfl
  | _ :: _ :: _ :: _ :: _ => rfl

theorem read_to_vec_length {n : Nat} {s v s' : List Nat}
    (h : read_to_vec n s = .ok v s') : v.length = n := by
  induction n generalizing s v s' with
  | zero =>
    simp only [read_to_vec, EStateM.Result.ok.injEq] at h
    simp [← h.1]
  | succ n ih =>
    cases s with
    | nil => simp [read_to_vec] at h
    | cons b rest =>
      simp only [read_to_vec] at h
      split at h
      · cases h
        simp [ih (by assumption)]
      · cases h

theorem read_to_vec_error {n : Nat} {s s' : List Nat} {e : Error}
    (h : read_to_vec n s = .error e s') : e = .Io := by
  induction n generalizing s s' with
  | zero => simp [read_to_vec] at h
  | succ n ih =>
    cases s with
    | nil =>
      simp only [read_to_vec, EStateM.Result.error.injEq] at h
      exact h.1.symm
    | cons b rest =>
      simp only [read_to_vec] at h
      split at h
      · cases h
      · cases h
        exact ih (by assumption)

theorem read_to_vec_append (data rest : List Nat) :
    read_to_vec data.length (data ++ rest) = .ok data rest := by
  induction data with
  | nil => rfl
  | cons b data ih => simp [read_to_vec, ih]

theorem read_string_loop_append (buf name rest : List Nat) (h : ∀ b ∈ name, b ≠ 0) :
    read_string_loop buf (name ++ 0 :: rest) = .ok (buf ++ name) rest := by
  induction name generalizing buf with
  | nil => simp [read_string_loop]
  | cons b name ih =>
    have hb : b ≠ 0 := h b (List.mem_cons_self ..)
    have ih2 := ih (buf ++ [b]) (fun x hx => h x (List.mem_cons_of_mem _ hx))
    simp [read_string_loop, hb, ih2]

theorem read_string_loop_noZero (buf s : List Nat) (h : ∀ b ∈ s, b ≠ 0) :
    read_string_loop buf s = .error .Io [] := by
  induction s generalizing buf with
  | nil => rfl
  | cons b rest ih =>
    have hb : b ≠ 0 := h b (List.mem_cons_self ..)
    have ih2 := ih (buf ++ [b]) (fun x hx => h x (List.mem_cons_of_mem _ hx))
    simp only [read_string_loop, if_neg hb, ih2]

theorem read_string_loop_error {buf s s' : List Nat} {e : Error}
    (h : read_string_loop buf s = .error e s') : e = .Io := by
  induction s generalizing buf with
  | nil =>
    simp only [read_string_loop, EStateM.Result.error.injEq] at h
    exact h.1.symm
  | cons b rest ih =>
    simp only [read_string_loop] at h
    split at h
    · cases h
    · exact ih h

theorem run_invalid_magic1 {b : Nat} {rest : List Nat} (h : b ≠ 0x1f) :
    Member.from_reader.run (b :: rest) =
      EStateM.Result.error (Error.Format (FormatError.InvalidMagic1 b)) rest := by
  simp [Member.from_reader, EStateM.run, bind_eq, readU8_eq, throw_eq, MAGIC1, h]

theorem run_invalid_magic2 {b : Nat} {rest : List Nat} (h : b ≠ 0x8b) :
    Member.from_reader.run (0x1f :: b :: rest) =
      EStateM.Result.error (Error.Format (FormatError.InvalidMagic2 b)) rest := by
  simp [Member.from_reader, EStateM.run, bind_eq, readU8_eq, throw_eq, MAGIC1, MAGIC2, h]

set_option maxHeartbeats 4000000 in
theorem from_reader_ok_inv {s : List Nat} {m : Member} {s' : List Nat}
    (h : Member.from_reader.run s = .ok m s') :
    m.magic1 = MAGIC1 ∧ m.magic2 = MAGIC2 ∧ m.data = [] ∧ m.crc32 = 0 ∧ m.size = 0 ∧
      (∀ ex, m.extra_fields = some ex → ex.data.length = ex.length) := by
  simp only [Member.from_reader, EStateM.run] at h
  repeat' (first
    | (split at h)
    | (simp only [bind_eq, readU8_eq, readU16LE_eq, readU32LE_eq, throw_eq, pure_eq,
        ite_run] at h))
  all_goals cases h
  all_goals refine ⟨by simp; omega, by simp; omega, rfl, rfl, rfl, fun ex hex => ?_⟩
  all_goals cases hex
  all_goals exact read_to_vec_length (by assumption)

set_option maxHeartbeats 4000000 in
theorem from_reader_error_after_magic {s : List Nat} {e : Error} {s' : List Nat}
    (h : Member.from_reader.run (0x1f :: 0x8b :: s) = .error e s') : e = .Io := by
  simp only [Member.from_reader, EStateM.run] at h
  repeat' (first
    | (split at h)
    | (simp only [bind_eq, readU8_eq, readU16LE_eq, readU32LE_eq, throw_eq, pure_eq,
        ite_run] at h))
  all_goals try exact absurd (rfl : (0x1f : Nat) = MAGIC1) (by assumption)
  all_goals try exact absurd (rfl : (0x8b : Nat) = MAGIC2) (by assumption)
  all_goals try cases h
  all_goals first
    | rfl
    | exact read_to_vec_error (by assumption)
    | exact read_string_loop_error (by assumption)
    | (rename_i hlast
       split at hlast <;> cases hlast <;> rfl)

theorem from_reader_error_inv {s : List Nat} {e : Error} {s' : List Nat}
    (h : Member.from_reader.run s = .error e s') :
    e = .Io ∨
      (∃ b rest, s = b :: rest ∧ b ≠ 0x1f ∧ e = .Format (.InvalidMagic1 b) ∧ s' = rest) ∨
      (∃ b rest, s = 0x1f :: b :: rest ∧ b ≠ 0x8b ∧ e = .Format (.InvalidMagic2 b) ∧ s' = rest) := by
  rcases s with _ | ⟨b0, s0⟩
  · rw [show Member.from_reader.run [] = .error .Io [] from rfl] at h
    cases h
    exact Or.inl rfl
  · by_cases hb0 : b0 = 0x1f
    · subst hb0
      rcases s0 with _ | ⟨b1, s1⟩
      · rw [show Member.from_reader.run [0x1f] = .error .Io [] from rfl] at h
        cases h
        exact Or.inl rfl
      · by_cases hb1 : b1 = 0x8b
        · subst hb1
          exact Or.inl (from_reader_error_after_magic h)
        · rw [run_invalid_magic2 hb1] at h
          cases h
          exact Or.inr (Or.inr ⟨b1, _, rfl, hb1, rfl, rfl⟩)
    · rw [run_invalid_magic1 hb0] at h
      cases h
      exact Or.inr (Or.inl ⟨b0, _, rfl, hb0, rfl, rfl⟩)

theorem cm_unknown (b : Nat) (h : 9 ≤ b) : CompressionMethod.fromPrimitive b = .Unknown := by
  rcases b with _|_|_|_|_|_|_|_|_|b
  all_goals first | omega | rfl

theorem os_unknown (b : Nat) (h : 14 ≤ b) : OperatingSystem.fromPrimitive b = .Unknown := by
  rcases b with _|_|_|_|_|_|_|_|_|_|_|_|_|_|b
  all_goals first | omega | rfl
/-! Theorems settling the specification claims. -/

/-- Claim C1: a valid header whose flags byte is 0 decodes successfully,
with all four optional fields absent and exactly 10 bytes consumed. -/
theorem decode_flags_zero_header (cm t0 t1 t2 t3 xf os : Nat) (rest : List Nat) :
    Member.from_reader.run (0x1f :: 0x8b :: cm :: 0x00 :: t0 :: t1 :: t2 :: t3 :: xf :: os :: rest) =
      EStateM.Result.ok
        { magic1 := 0x1f, magic2 := 0x8b,
          compression_method := CompressionMethod.fromPrimitive cm, flags := 0,
          modification_time := t0 + 256 * t1 + 65536 * t2 + 16777216 * t3,
          extra_flags := xf, operating_system := OperatingSystem.fromPrimitive os,
          extra_fields := none, original_file_name := none, comment := none,
          crc16 := none, data := [], crc32 := 0, size := 0 } rest := rfl

/-- Claim C2: a first byte other than `0x1F` fails with `InvalidMagic1`
carrying that byte, with exactly one byte consumed. -/
theorem decode_invalid_magic1 (b : Nat) (rest : List Nat) (h : b ≠ 0x1f) :
    Member.from_reader.run (b :: rest) =
      EStateM.Result.error (Error.Format (FormatError.InvalidMagic1 b)) rest :=
  run_invalid_magic1 h

theorem decode_invalid_magic1_witness :
    Member.from_reader.run [0x00] =
      EStateM.Result.error (Error.Format (FormatError.InvalidMagic1 0x00)) [] :=
  decode_invalid_magic1 0x00 [] (by decide)

/-- Claim C3: first byte `0x1F` and second byte other than `0x8B` fails
with `InvalidMagic2` carrying that byte, after exactly 2 bytes consumed. -/
theorem decode_invalid_magic2 (b : Nat) (rest : List Nat) (h : b ≠ 0x8b) :
    Member.from_reader.run (0x1f :: b :: rest) =
      EStateM.Result.error (Error.Format (FormatError.InvalidMagic2 b)) rest :=
  run_invalid_magic2 h

theorem decode_invalid_magic2_witness :
    Member.from_reader.run [0x1f, 0x00] =
      EStateM.Result.error (Error.Format (FormatError.InvalidMagic2 0x00)) [] :=
  decode_invalid_magic2 0x00 [] (by decide)

/-- Claim C4: with the filename flag set, decode consumes the filename
bytes up to and including the first zero byte and stores the bytes before
the terminator, decoded by the total (never-failing) lossy UTF-8
conversion; independently the same holds for the comment flag. -/
theorem decode_nullterm_fields :
    (∀ (cm f t0 t1 t2 t3 xf os : Nat) (name rest : List Nat),
        Flags.contains f Flags.Extra = false → Flags.contains f Flags.Name = true →
        Flags.contains f Flags.Comment = false → Flags.contains f Flags.HCrc = false →
        (∀ b ∈ name, b ≠ 0) →
        Member.from_reader.run (0x1f :: 0x8b :: cm :: f :: t0 :: t1 :: t2 :: t3 :: xf :: os ::
            (name ++ 0 :: rest)) =
          EStateM.Result.ok
            { magic1 := 0x1f, magic2 := 0x8b,
              compression_method := CompressionMethod.fromPrimitive cm, flags := f,
              modification_time := t0 + 256 * t1 + 65536 * t2 + 16777216 * t3,
              extra_flags := xf, operating_system := OperatingSystem.fromPrimitive os,
              extra_fields := none, original_file_name := some (from_utf8_lossy name),
              comment := none, crc16 := none, data := [], crc32 := 0, size := 0 } rest) ∧
    (∀ (cm f t0 t1 t2 t3 xf os : Nat) (cmt rest : List Nat),
        Flags.contains f Flags.Extra = false → Flags.contains f Flags.Name = false →
        Flags.contains f Flags.Comment = true → Flags.contains f Flags.HCrc = false →
        (∀ b ∈ cmt, b ≠ 0) →
        Member.from_reader.run (0x1f :: 0x8b :: cm :: f :: t0 :: t1 :: t2 :: t3 :: xf :: os ::
            (cmt ++ 0 :: rest)) =
          EStateM.Result.ok
            { magic1 := 0x1f, magic2 := 0x8b,
              compression_method := CompressionMethod.fromPrimitive cm, flags := f,
              modification_time := t0 + 256 * t1 + 65536 * t2 + 16777216 * t3,
              extra_flags := xf, operating_system := OperatingSystem.fromPrimitive os,
              extra_fields := none, original_file_name := none,
              comment := some (from_utf8_lossy cmt), crc16 := none,
              data := [], crc32 := 0, size := 0 } rest) := by
  constructor
  · intro cm f t0 t1 t2 t3 xf os name rest hE hN hC hH h1
    have e1 := read_string_loop_append [] name rest h1
    simp only [List.nil_append] at e1
    simp [Member.from_reader, EStateM.run, bind_eq, readU8_eq, readU32LE_eq, throw_eq,
      pure_eq, ite_run, map_eq, MAGIC1, MAGIC2, hE, hN, hC, hH, e1]
  · intro cm f t0 t1 t2 t3 xf os cmt rest hE hN hC hH h2
    have e2 := read_string_loop_append [] cmt rest h2
    simp only [List.nil_append] at e2
    simp [Member.from_reader, EStateM.run, bind_eq, readU8_eq, readU32LE_eq, throw_eq,
      pure_eq, ite_run, map_eq, MAGIC1, MAGIC2, hE, hN, hC, hH, e2]

theorem decode_nullterm_fields_witness :
    Member.from_reader.run [0x1f, 0x8b, 0x08, 0x08, 0, 0, 0, 0, 0, 0x03,
        0x66, 0x6f, 0x6f, 0x00] =
      EStateM.Result.ok
        { magic1 := 0x1f, magic2 := 0x8b, compression_method := CompressionMethod.Deflate,
          flags := 8, modification_time := 0, extra_flags := 0,
          operating_system := OperatingSystem.Unix, extra_fields := none,
          original_file_name := some [0x66, 0x6f, 0x6f], comment := none, crc16 := none,
          data := [], crc32 := 0, size := 0 } [] :=
  decode_nullterm_fields.1 8 8 0 0 0 0 0 3 [0x66, 0x6f, 0x6f] [] rfl rfl rfl rfl (by decide)
/-- Claim C5: with the extra-field flag set, decode reads the two
identification bytes, a 2-byte little-endian length `L`, then exactly `L`
data bytes; in every successfully decoded `Member` the stored extra data
has length equal to the stored length field; with the flag clear none of
those bytes are consumed. -/
theorem decode_extra_field :
    (∀ (cm f t0 t1 t2 t3 xf os sub1 sub2 l0 l1 : Nat) (data rest : List Nat),
        Flags.contains f Flags.Extra = true → Flags.contains f Flags.Name = false →
        Flags.contains f Flags.Comment = false → Flags.contains f Flags.HCrc = false →
        data.length = l0 + 256 * l1 →
        Member.from_reader.run (0x1f :: 0x8b :: cm :: f :: t0 :: t1 :: t2 :: t3 :: xf :: os ::
            sub1 :: sub2 :: l0 :: l1 :: (data ++ rest)) =
          EStateM.Result.ok
            { magic1 := 0x1f, magic2 := 0x8b,
              compression_method := CompressionMethod.fromPrimitive cm, flags := f,
              modification_time := t0 + 256 * t1 + 65536 * t2 + 16777216 * t3,
              extra_flags := xf, operating_system := OperatingSystem.fromPrimitive os,
              extra_fields := some ⟨sub1, sub2, l0 + 256 * l1, data⟩,
              original_file_name := none, comment := none, crc16 := none,
              data := [], crc32 := 0, size := 0 } rest) ∧
    (∀ (s : List Nat) (m : Member) (s' : List Nat),
        Member.from_reader.run s = .ok m s' →
        ∀ ex, m.extra_fields = some ex → ex.data.length = ex.length) ∧
    (∀ (cm t0 t1 t2 t3 xf os : Nat) (rest : List Nat),
        Member.from_reader.run
            (0x1f :: 0x8b :: cm :: 0x00 :: t0 :: t1 :: t2 :: t3 :: xf :: os :: rest) =
          EStateM.Result.ok
            { magic1 := 0x1f, magic2 := 0x8b,
              compression_method := CompressionMethod.fromPrimitive cm, flags := 0,
              modification_time := t0 + 256 * t1 + 65536 * t2 + 16777216 * t3,
              extra_flags := xf, operating_system := OperatingSystem.fromPrimitive os,
              extra_fields := none, original_file_name := none, comment := none,
              crc16 := none, data := [], crc32 := 0, size := 0 } rest) := by
  refine ⟨?_, fun s m s' h => (from_reader_ok_inv h).2.2.2.2.2, fun cm t0 t1 t2 t3 xf os rest => rfl⟩
  intro cm f t0 t1 t2 t3 xf os sub1 sub2 l0 l1 data rest hE hN hC hH hlen
  have e1 : read_to_vec (l0 + 256 * l1) (data ++ rest) = .ok data rest :=
    hlen ▸ read_to_vec_append data rest
  simp [Member.from_reader, EStateM.run, bind_eq, readU8_eq, readU16LE_eq, readU32LE_eq,
    throw_eq, pure_eq, ite_run, map_eq, MAGIC1, MAGIC2, hE, hN, hC, hH, e1]

theorem decode_extra_field_witness :
    (Member.from_reader.run [0x1f, 0x8b, 0x08, 0x04, 0, 0, 0, 0, 0, 0x03,
        0x09, 0x0a, 0x01, 0x00, 0x07] =
      EStateM.Result.ok
        { magic1 := 0x1f, magic2 := 0x8b, compression_method := CompressionMethod.Deflate,
          flags := 4, modification_time := 0, extra_flags := 0,
          operating_system := OperatingSystem.Unix,
          extra_fields := some ⟨0x09, 0x0a, 1, [0x07]⟩,
          original_file_name := none, comment := none, crc16 := none,
          data := [], crc32 := 0, size := 0 } []) ∧
    ([0x07] : List Nat).length = 1 := by
  have h1 := decode_extra_field.1 8 4 0 0 0 0 0 3 9 10 1 0 [7] [] rfl rfl rfl rfl (by decide)
  have h2 := decode_extra_field.2.1 _ _ _ h1 ⟨9, 10, 1, [7]⟩ rfl
  exact ⟨h1, h2⟩

/-- Claim C6: the compression-method byte and the operating-system byte
never make the decode fail: `0x08` maps to `Deflate`, the 14 known
platform codes map to their named variants, and every byte with no named
code maps to `Unknown`. -/
theorem decode_enum_total :
    CompressionMethod.fromPrimitive 0x08 = .Deflate ∧
    CompressionMethod.fromPrimitive 0x09 = .Unknown ∧
    OperatingSystem.fromPrimitive 0x20 = .Unknown ∧
    (∀ b, 9 ≤ b → CompressionMethod.fromPrimitive b = .Unknown) ∧
    (∀ b, 14 ≤ b → OperatingSystem.fromPrimitive b = .Unknown) ∧
    (OperatingSystem.fromPrimitive 0x00 = .Fat ∧ OperatingSystem.fromPrimitive 0x01 = .Amiga ∧
      OperatingSystem.fromPrimitive 0x02 = .Vms ∧ OperatingSystem.fromPrimitive 0x03 = .Unix ∧
      OperatingSystem.fromPrimitive 0x04 = .VmCms ∧ OperatingSystem.fromPrimitive 0x05 = .Atari ∧
      OperatingSystem.fromPrimitive 0x06 = .Hpfs ∧
      OperatingSystem.fromPrimitive 0x07 = .Macintosh ∧
      OperatingSystem.fromPrimitive 0x08 = .ZSystem ∧
      OperatingSystem.fromPrimitive 0x09 = .CPM ∧
      OperatingSystem.fromPrimitive 0x0a = .Top20 ∧
      OperatingSystem.fromPrimitive 0x0b = .Ntfs ∧
      OperatingSystem.fromPrimitive 0x0c = .QDos ∧
      OperatingSystem.fromPrimitive 0x0d = .AcornRiscOS) ∧
    (∀ (cm os : Nat) (rest : List Nat),
        Member.from_reader.run (0x1f :: 0x8b :: cm :: 0 :: 0 :: 0 :: 0 :: 0 :: 0 :: os :: rest) =
          EStateM.Result.ok
            { magic1 := 0x1f, magic2 := 0x8b,
              compression_method := CompressionMethod.fromPrimitive cm, flags := 0,
              modification_time := 0, extra_flags := 0,
              operating_system := OperatingSystem.fromPrimitive os,
              extra_fields := none, original_file_name := none, comment := none,
              crc16 := none, data := [], crc32 := 0, size := 0 } rest) :=
  ⟨rfl, rfl, rfl, cm_unknown, os_unknown, by decide, fun cm os rest => rfl⟩

theorem decode_enum_total_witness :
    CompressionMethod.fromPrimitive 9 = .Unknown ∧
    OperatingSystem.fromPrimitive 32 = .Unknown :=
  ⟨decode_enum_total.2.2.2.1 9 (by decide), decode_enum_total.2.2.2.2.1 32 (by decide)⟩

/-- Claim C7: the fields are read in the fixed order magic1, magic2,
method, flags, 4-byte LE mtime, extra_flags, os, then extra field,
filename, comment, and the 16-bit LE header checksum last. -/
theorem decode_field_order (cm f t0 t1 t2 t3 xf os sub1 sub2 l0 l1 c0 c1 : Nat)
    (data name cmt rest : List Nat)
    (hE : Flags.contains f Flags.Extra = true) (hN : Flags.contains f Flags.Name = true)
    (hC : Flags.contains f Flags.Comment = true) (hH : Flags.contains f Flags.HCrc = true)
    (hlen : data.length = l0 + 256 * l1)
    (h1 : ∀ b ∈ name, b ≠ 0) (h2 : ∀ b ∈ cmt, b ≠ 0) :
    Member.from_reader.run (0x1f :: 0x8b :: cm :: f :: t0 :: t1 :: t2 :: t3 :: xf :: os ::
        sub1 :: sub2 :: l0 :: l1 ::
        (data ++ (name ++ 0 :: (cmt ++ 0 :: (c0 :: c1 :: rest))))) =
      EStateM.Result.ok
        { magic1 := 0x1f, magic2 := 0x8b,
          compression_method := CompressionMethod.fromPrimitive cm, flags := f,
          modification_time := t0 + 256 * t1 + 65536 * t2 + 16777216 * t3,
          extra_flags := xf, operating_system := OperatingSystem.fromPrimitive os,
          extra_fields := some ⟨sub1, sub2, l0 + 256 * l1, data⟩,
          original_file_name := some (from_utf8_lossy name),
          comment := some (from_utf8_lossy cmt),
          crc16 := some (c0 + 256 * c1),
          data := [], crc32 := 0, size := 0 } rest := by
  have e1 : read_to_vec (l0 + 256 * l1) (data ++ (name ++ 0 :: (cmt ++ 0 :: (c0 :: c1 :: rest)))) =
      .ok data (name ++ 0 :: (cmt ++ 0 :: (c0 :: c1 :: rest))) :=
    hlen ▸ read_to_vec_append data _
  have e2 := read_string_loop_append [] name (cmt ++ 0 :: (c0 :: c1 :: rest)) h1
  have e3 := read_string_loop_append [] cmt (c0 :: c1 :: rest) h2
  simp only [List.nil_append] at e2 e3
  simp [Member.from_reader, EStateM.run, bind_eq, readU8_eq, readU16LE_eq, readU32LE_eq,
    throw_eq, pure_eq, ite_run, map_eq, MAGIC1, MAGIC2, hE, hN, hC, hH, e1, e2, e3]

theorem decode_field_order_witness :
    Member.from_reader.run [0x1f, 0x8b, 0x08, 0x1e, 0, 0, 0, 0, 0, 0x03,
        0x09, 0x0a, 0x01, 0x00, 0x07, 0x66, 0x00, 0x63, 0x00, 0x01, 0x02] =
      EStateM.Result.ok
        { magic1 := 0x1f, magic2 := 0x8b, compression_method := CompressionMethod.Deflate,
          flags := 0x1e, modification_time := 0, extra_flags := 0,
          operating_system := OperatingSystem.Unix,
          extra_fields := some ⟨0x09, 0x0a, 1, [0x07]⟩,
          original_file_name := some [0x66], comment := some [0x63],
          crc16 := some 513, data := [], crc32 := 0, size := 0 } [] :=
  decode_field_order 8 0x1e 0 0 0 0 0 3 9 10 1 0 1 2 [7] [0x66] [0x63] []
    rfl rfl rfl rfl (by decide) (by decide) (by decide)
/-- Claim C8: decode has exactly two disjoint error kinds: every read
failure propagates as the `Io` variant, the `Format` variant arises only
from the two magic-byte mismatches, a result is never both, and no
`Member` value is returned on error. -/
theorem decode_error_kinds :
    (∀ (s : List Nat) (e : Error) (s' : List Nat),
        Member.from_reader.run s = .error e s' →
        e = .Io ∨
          (∃ b rest, s = b :: rest ∧ b ≠ 0x1f ∧
            e = .Format (.InvalidMagic1 b) ∧ s' = rest) ∨
          (∃ b rest, s = 0x1f :: b :: rest ∧ b ≠ 0x8b ∧
            e = .Format (.InvalidMagic2 b) ∧ s' = rest)) ∧
    (∀ s : List Nat,
        (∃ m s', Member.from_reader.run s = .ok m s') ∨
        (∃ e s', Member.from_reader.run s = .error e s')) ∧
    (∀ (s : List Nat) (m : Member) (s' : List Nat) (e : Error) (s'' : List Nat),
        Member.from_reader.run s = .ok m s' →
        Member.from_reader.run s = .error e s'' → False) := by
  refine ⟨fun s e s' h => from_reader_error_inv h, fun s => ?_, fun s m s' e s'' h1 h2 => ?_⟩
  · cases hr : Member.from_reader.run s with
    | ok m s2 => exact Or.inl ⟨m, s2, rfl⟩
    | error e s2 => exact Or.inr ⟨e, s2, rfl⟩
  · rw [h1] at h2
    cases h2

theorem decode_error_kinds_witness :
    Error.Io = Error.Io ∨
      (∃ b rest, ([] : List Nat) = b :: rest ∧ b ≠ 0x1f ∧
        Error.Io = Error.Format (.InvalidMagic1 b) ∧ ([] : List Nat) = rest) ∨
      (∃ b rest, ([] : List Nat) = 0x1f :: b :: rest ∧ b ≠ 0x8b ∧
        Error.Io = Error.Format (.InvalidMagic2 b) ∧ ([] : List Nat) = rest) :=
  decode_error_kinds.1 [] Error.Io [] rfl

/-- Claim C9: every successfully decoded `Member` has the payload fields
fixed: `data` empty, `crc32` zero, `size` zero. -/
theorem decode_payload_zeroed (s : List Nat) (m : Member) (s' : List Nat)
    (h : Member.from_reader.run s = .ok m s') :
    m.data = [] ∧ m.crc32 = 0 ∧ m.size = 0 :=
  ⟨(from_reader_ok_inv h).2.2.1, (from_reader_ok_inv h).2.2.2.1,
    (from_reader_ok_inv h).2.2.2.2.1⟩

theorem decode_payload_zeroed_witness :
    ({ magic1 := 0x1f, magic2 := 0x8b, compression_method := CompressionMethod.Deflate,
       flags := 0, modification_time := 0, extra_flags := 0,
       operating_system := OperatingSystem.Unix, extra_fields := none,
       original_file_name := none, comment := none, crc16 := none,
       data := [], crc32 := 0, size := 0 } : Member).data = [] ∧
    ({ magic1 := 0x1f, magic2 := 0x8b, compression_method := CompressionMethod.Deflate,
       flags := 0, modification_time := 0, extra_flags := 0,
       operating_system := OperatingSystem.Unix, extra_fields := none,
       original_file_name := none, comment := none, crc16 := none,
       data := [], crc32 := 0, size := 0 } : Member).crc32 = 0 ∧
    ({ magic1 := 0x1f, magic2 := 0x8b, compression_method := CompressionMethod.Deflate,
       flags := 0, modification_time := 0, extra_flags := 0,
       operating_system := OperatingSystem.Unix, extra_fields := none,
       original_file_name := none, comment := none, crc16 := none,
       data := [], crc32 := 0, size := 0 } : Member).size = 0 :=
  decode_payload_zeroed [0x1f, 0x8b, 0x08, 0x00, 0, 0, 0, 0, 0, 0x03] _ [] rfl

/-- Claim C10: decode terminates on every finite input; with the
filename (or comment) flag set and no zero byte in the remaining input,
the null-terminated loop consumes everything and fails with the
transport `Io` error instead of diverging or returning a value. -/
theorem decode_eof_io :
    (∀ (cm f t0 t1 t2 t3 xf os : Nat) (name : List Nat),
        Flags.contains f Flags.Extra = false → Flags.contains f Flags.Name = true →
        (∀ b ∈ name, b ≠ 0) →
        Member.from_reader.run
            (0x1f :: 0x8b :: cm :: f :: t0 :: t1 :: t2 :: t3 :: xf :: os :: name) =
          EStateM.Result.error Error.Io []) ∧
    (∀ (cm f t0 t1 t2 t3 xf os : Nat) (cmt : List Nat),
        Flags.contains f Flags.Extra = false → Flags.contains f Flags.Name = false →
        Flags.contains f Flags.Comment = true →
        (∀ b ∈ cmt, b ≠ 0) →
        Member.from_reader.run
            (0x1f :: 0x8b :: cm :: f :: t0 :: t1 :: t2 :: t3 :: xf :: os :: cmt) =
          EStateM.Result.error Error.Io []) ∧
    (∀ s : List Nat,
        (∃ m s', Member.from_reader.run s = .ok m s') ∨
        (∃ e s', Member.from_reader.run s = .error e s')) := by
  refine ⟨?_, ?_, fun s => ?_⟩
  · intro cm f t0 t1 t2 t3 xf os name hE hN h1
    have e1 := read_string_loop_noZero [] name h1
    simp [Member.from_reader, EStateM.run, bind_eq, readU8_eq, readU32LE_eq, throw_eq,
      pure_eq, ite_run, map_eq, MAGIC1, MAGIC2, hE, hN, e1]
  · intro cm f t0 t1 t2 t3 xf os cmt hE hN hC h2
    have e2 := read_string_loop_noZero [] cmt h2
    simp [Member.from_reader, EStateM.run, bind_eq, readU8_eq, readU32LE_eq, throw_eq,
      pure_eq, ite_run, map_eq, MAGIC1, MAGIC2, hE, hN, hC, e2]
  · cases hr : Member.from_reader.run s with
    | ok m s2 => exact Or.inl ⟨m, s2, rfl⟩
    | error e s2 => exact Or.inr ⟨e, s2, rfl⟩

theorem decode_eof_io_witness :
    Member.from_reader.run [0x1f, 0x8b, 0x08, 0x08, 0, 0, 0, 0, 0, 0x03, 0x66] =
      EStateM.Result.error Error.Io [] :=
  decode_eof_io.1 8 8 0 0 0 0 0 3 [0x66] rfl rfl (by decide)
